import Mathlib

/-!
Verification development for the gpui2 element rendering protocol
(`crates/gpui2/src/element.rs`): the two-phase layout/paint contract, the
phase-checked draw state machine (`DrawableElement`), the per-identity
persisted-state routing, the type-erasure boundary (`ElementObject` for
`Option<DrawableElement<E>>` behind `AnyElement`), the composite adapter
(`CompositeElement`) and the one-off `RenderOnce::draw` path.

The window context collaborators (`with_element_state`, `compute_layout`,
`layout_bounds`, `with_absolute_element_offset`) live outside this crate's
element module; they are modelled from the specification of external
interfaces.  Machine effects are made observable by logging store accesses,
solver invocations (together with the ambient absolute offset at the moment
of the call) and by threading the context through every operation.  A fatal
protocol violation (a Rust panic) is modelled as an `Except.error` carrying
the panic message, paired with the context at the moment of failure.
-/

namespace Gpui

abbrev ElementId := Nat

abbrev LayoutId := Nat

abbrev Pixels := Int

structure Point where
  x : Pixels
  y : Pixels
deriving DecidableEq

def Point.add (a b : Point) : Point :=
  ⟨a.x + b.x, a.y + b.y⟩

structure Size (α : Type) where
  width : α
  height : α
deriving DecidableEq

inductive AvailableSpace where
  | definite (px : Pixels)
  | minContent
  | maxContent
deriving DecidableEq

structure Bounds where
  origin : Point
  size : Size Pixels
deriving DecidableEq

/-- Association-list lookup, used for the persisted element-state store and
the solver's per-handle constraint table. -/
def lookupIn {κ ν : Type} [DecidableEq κ] : List (κ × ν) → κ → Option ν
  | [], _ => none
  | (k, v) :: rest, k2 => if k = k2 then some v else lookupIn rest k2

/-- Association-list update (insert or overwrite). -/
def setIn {κ ν : Type} [DecidableEq κ] : List (κ × ν) → κ → ν → List (κ × ν)
  | [], k, v => [(k, v)]
  | (k0, v0) :: rest, k, v =>
    if k0 = k then (k, v) :: rest else (k0, v0) :: setIn rest k v

/-- The observable window-context state.  `store` is the persisted
element-state store keyed by identity (values of an erased type `σ`,
standing for the dynamically typed state cells).  `storeLog` records every
`with_element_state` access.  `computeLog` records every solver
`compute_layout` invocation, together with the ambient absolute offset at
the moment of the call.  `lastConstraint` is the solver's per-handle record
of the most recent constraint.  `offset` is the ambient absolute element
offset. -/
structure Ctx (σ : Type) where
  store : List (ElementId × σ)
  storeLog : List ElementId
  computeLog : List (LayoutId × Size AvailableSpace × Point)
  lastConstraint : List (LayoutId × Size AvailableSpace)
  offset : Point
deriving DecidableEq

def Ctx.lookupState {σ : Type} (cx : Ctx σ) (id : ElementId) : Option σ :=
  lookupIn cx.store id

def Ctx.setState {σ : Type} (cx : Ctx σ) (id : ElementId) (s : σ) : Ctx σ :=
  { cx with store := setIn cx.store id s }

/-- Modelled from the spec: `with_state(identity_path, continuation)` looks
up prior state at the path, invokes the continuation with the optional
previous state and the context, writes back the returned state and returns
the continuation's result.  The access is logged.  (The concrete
`WindowContext::with_element_state` lives outside the source module.) -/
def Ctx.withElementState {σ β : Type} (cx : Ctx σ) (id : ElementId)
    (f : Option σ → Ctx σ → Except String (β × σ) × Ctx σ) :
    Except String β × Ctx σ :=
  match f (cx.lookupState id) { cx with storeLog := cx.storeLog ++ [id] } with
  | (.ok (b, s), cx2) => (.ok b, cx2.setState id s)
  | (.error m, cx2) => (.error m, cx2)

/-- Modelled from the spec: `compute_layout(handle, constraint)` asks the
external solver to compute bounds for the handle against the constraint.
The invocation is logged together with the ambient offset. -/
def Ctx.computeLayout {σ : Type} (cx : Ctx σ) (lid : LayoutId)
    (avs : Size AvailableSpace) : Ctx σ :=
  { cx with
    computeLog := cx.computeLog ++ [(lid, avs, cx.offset)]
    lastConstraint := setIn cx.lastConstraint lid avs }

/-- Modelled from the spec: the external solver's concrete geometry rule,
one fixed deterministic interpretation of a constraint dimension. -/
def solveDim : AvailableSpace → LayoutId → Pixels
  | .definite px, _ => px
  | .minContent, lid => Int.ofNat lid
  | .maxContent, lid => Int.ofNat lid + 1000

def solveSize (lid : LayoutId) (avs : Size AvailableSpace) : Size Pixels :=
  ⟨solveDim avs.width lid, solveDim avs.height lid⟩

/-- Modelled from the spec: `layout_bounds(handle)` returns the bounds the
solver last computed for the handle (from its recorded constraint). -/
def Ctx.layoutBounds {σ : Type} (cx : Ctx σ) (lid : LayoutId) : Bounds :=
  { origin := ⟨0, 0⟩
    size := solveSize lid
      ((lookupIn cx.lastConstraint lid).getD ⟨.minContent, .minContent⟩) }

/-- Modelled from the spec: `with_absolute_offset(origin, continuation)` is
a scoped positioning shift by `origin`, restored on all exits, success or
failure. -/
def Ctx.withAbsoluteElementOffset {σ β : Type} (cx : Ctx σ) (origin : Point)
    (f : Ctx σ → Except String β × Ctx σ) : Except String β × Ctx σ :=
  match f { cx with offset := cx.offset.add origin } with
  | (r, cx2) => (r, { cx2 with offset := cx.offset })

/-- The `Element` trait (together with the `element_id` of its `RenderOnce`
supertrait), as a first-class dictionary over a carrier `α` of element
values with associated state type `S`.  `layout` takes the element by
mutable reference (hence returns an updated carrier) and may fail (a panic
in the element's own code); `paint` consumes the element and the mutable
state.  `inj`/`proj` model the boxing into / downcast from the dynamically
typed state cells (`Box<dyn Any>`) held by the persisted store. -/
structure ElementClass (σ : Type) (α : Type) (S : Type) where
  elId : α → Option ElementId
  layout : α → Option S → Ctx σ → Except String ((LayoutId × S) × α) × Ctx σ
  paint : α → Bounds → S → Ctx σ → Except String S × Ctx σ
  inj : S → σ
  proj : σ → Option S

/-- Source type `ElementDrawPhase`: the draw-progress phase of a
`DrawableElement`. -/
inductive ElementDrawPhase (S : Type) where
  | start
  | layoutRequested (layoutId : LayoutId) (frameState : Option S)
  | layoutComputed (layoutId : LayoutId) (availableSpace : Size AvailableSpace)
      (frameState : Option S)
deriving DecidableEq

/-- Source type `DrawableElement`: the draw-phase wrapper, holding the
element in an owned slot plus the phase tag with optional inline frame
state. -/
structure DrawableElement (α S : Type) where
  element : Option α
  phase : ElementDrawPhase S
deriving DecidableEq

def unwrapMsg : String := "called Option.unwrap on a None value"

def expectStateMsg : String :=
  "if we do not have frame state, we should have element state"

def paintBeforeLayoutMsg : String := "must call layout before paint"

def measureAfterPaintMsg : String := "cannot measure after painting"

def downcastMsg : String := "downcast of the persisted element state failed"

/-- The body of `DrawableElement::layout`, which depends only on the element
slot: if the element has an identity, prior state is looked up in the
persisted store, passed to the element's layout, and the returned state is
written back (no inline copy); otherwise the element's layout is called with
`None` and the returned state is kept for inline storage. -/
def layoutStateCont {σ α S : Type} (cls : ElementClass σ α S) (e : α) :
    Option σ → Ctx σ → Except String ((LayoutId × α) × σ) × Ctx σ :=
  fun prior cx =>
    match prior with
    | none =>
      match cls.layout e none cx with
      | (.ok ((lid, s), e2), cx2) => (.ok ((lid, e2), cls.inj s), cx2)
      | (.error m, cx2) => (.error m, cx2)
    | some anyPrev =>
      match cls.proj anyPrev with
      | none => (.error downcastMsg, cx)
      | some prev =>
        match cls.layout e (some prev) cx with
        | (.ok ((lid, s), e2), cx2) => (.ok ((lid, e2), cls.inj s), cx2)
        | (.error m, cx2) => (.error m, cx2)

def layoutAux {σ α S : Type} (cls : ElementClass σ α S) (el : Option α)
    (cx : Ctx σ) : Except String (LayoutId × α × Option S) × Ctx σ :=
  match el with
  | none => (.error unwrapMsg, cx)
  | some e =>
    match cls.elId e with
    | some id =>
      match cx.withElementState id (layoutStateCont cls e) with
      | (.ok (lid, e2), cx2) => (.ok (lid, e2, none), cx2)
      | (.error m, cx2) => (.error m, cx2)
    | none =>
      match cls.layout e none cx with
      | (.ok ((lid, s), e2), cx2) => (.ok (lid, e2, some s), cx2)
      | (.error m, cx2) => (.error m, cx2)

/-- Source `DrawableElement::layout`: runs the identity-routed layout body and then
unconditionally sets the phase to `LayoutRequested`. -/
def DrawableElement.layout {σ α S : Type} (cls : ElementClass σ α S)
    (d : DrawableElement α S) (cx : Ctx σ) :
    Except String LayoutId × DrawableElement α S × Ctx σ :=
  match layoutAux cls d.element cx with
  | (.ok (lid, e2, fs), cx2) =>
    (.ok lid, { element := some e2, phase := .layoutRequested lid fs }, cx2)
  | (.error m, cx2) => (.error m, d, cx2)

/-- The continuation `DrawableElement::paint` hands to `with_element_state`
when the frame state is persisted: unwrap the prior state (which must be
present), paint with it, hand the updated state back for writeback. -/
def paintStateCont {σ α S : Type} (cls : ElementClass σ α S) (e : α)
    (bounds : Bounds) : Option σ → Ctx σ → Except String (Unit × σ) × Ctx σ :=
  fun prior cx =>
    match prior with
    | none => (.error unwrapMsg, cx)
    | some anyPrev =>
      match cls.proj anyPrev with
      | none => (.error downcastMsg, cx)
      | some s =>
        match cls.paint e bounds s cx with
        | (.ok s2, cx2) => (.ok ((), cls.inj s2), cx2)
        | (.error m, cx2) => (.error m, cx2)

/-- The body of `DrawableElement::paint` for the two paintable phases:
fetch the final bounds for the handle; with inline frame state, paint with
it and hand it back to the caller; without, fetch the persisted state under
the element's identity (which must exist), paint with it, write it back and
return `None`. -/
def paintCore {σ α S : Type} (cls : ElementClass σ α S) (el : Option α)
    (lid : LayoutId) (fs : Option S) (cx : Ctx σ) :
    Except String (Option S) × Ctx σ :=
  let bounds := cx.layoutBounds lid
  match fs with
  | some s =>
    match el with
    | none => (.error unwrapMsg, cx)
    | some e =>
      match cls.paint e bounds s cx with
      | (.ok s2, cx2) => (.ok (some s2), cx2)
      | (.error m, cx2) => (.error m, cx2)
  | none =>
    match el with
    | none => (.error unwrapMsg, cx)
    | some e =>
      match cls.elId e with
      | none => (.error expectStateMsg, cx)
      | some id =>
        match cx.withElementState id (paintStateCont cls e bounds) with
        | (.ok _, cx2) => (.ok none, cx2)
        | (.error m, cx2) => (.error m, cx2)

/-- Source `DrawableElement::paint`: requires `LayoutRequested` or
`LayoutComputed`; in `Start` it is a fatal protocol violation. -/
def DrawableElement.paint {σ α S : Type} (cls : ElementClass σ α S)
    (d : DrawableElement α S) (cx : Ctx σ) :
    Except String (Option S) × Ctx σ :=
  match d.phase with
  | .layoutRequested lid fs => paintCore cls d.element lid fs cx
  | .layoutComputed lid _ fs => paintCore cls d.element lid fs cx
  | .start => (.error paintBeforeLayoutMsg, cx)

/-- The match of `DrawableElement::measure` performed once the phase is past
`Start`: in `LayoutRequested` the solver computes the handle against the
constraint and the constraint is recorded; in `LayoutComputed` the solver is
re-invoked only when the constraint changed, updating the recorded value. -/
def measureStep {σ α S : Type} (d : DrawableElement α S)
    (avs : Size AvailableSpace) (cx : Ctx σ) :
    Except String (Size Pixels) × DrawableElement α S × Ctx σ :=
  match d.phase with
  | .layoutRequested lid fs =>
    let cx2 := cx.computeLayout lid avs
    (.ok (cx2.layoutBounds lid).size,
      { d with phase := .layoutComputed lid avs fs }, cx2)
  | .layoutComputed lid prevAvs fs =>
    if avs = prevAvs then
      (.ok (cx.layoutBounds lid).size, d, cx)
    else
      let cx2 := cx.computeLayout lid avs
      (.ok (cx2.layoutBounds lid).size,
        { d with phase := .layoutComputed lid avs fs }, cx2)
  | .start => (.error measureAfterPaintMsg, d, cx)

/-- Source `DrawableElement::measure`: performs `layout` first when still in
`Start`, then the measuring step. -/
def DrawableElement.measure {σ α S : Type} (cls : ElementClass σ α S)
    (d : DrawableElement α S) (avs : Size AvailableSpace) (cx : Ctx σ) :
    Except String (Size Pixels) × DrawableElement α S × Ctx σ :=
  match d.phase with
  | .start =>
    match DrawableElement.layout cls d cx with
    | (.ok _, d2, cx2) => measureStep d2 avs cx2
    | (.error m, d2, cx2) => (.error m, d2, cx2)
  | _ => measureStep d avs cx

/-- Source `DrawableElement::draw`: `measure` with the constraint, then `paint`
inside the scoped absolute-offset shift by `origin`. -/
def DrawableElement.draw {σ α S : Type} (cls : ElementClass σ α S)
    (d : DrawableElement α S) (origin : Point) (avs : Size AvailableSpace)
    (cx : Ctx σ) : Except String (Option S) × Ctx σ :=
  match DrawableElement.measure cls d avs cx with
  | (.ok _, d2, cx2) =>
    cx2.withAbsoluteElementOffset origin
      (fun cx => DrawableElement.paint cls d2 cx)
  | (.error m, _, cx2) => (.error m, cx2)

/-- Source `ElementObject::layout` for `Option<DrawableElement<E>>`: borrows the
slot mutably, failing when the value has already been taken. -/
def containerLayout {σ α S : Type} (cls : ElementClass σ α S) :
    Option (DrawableElement α S) → Ctx σ →
    Except String LayoutId × Option (DrawableElement α S) × Ctx σ
  | none, cx => (.error unwrapMsg, none, cx)
  | some d, cx =>
    match DrawableElement.layout cls d cx with
    | (r, d2, cx2) => (r, some d2, cx2)

/-- Source `ElementObject::measure` for `Option<DrawableElement<E>>`. -/
def containerMeasure {σ α S : Type} (cls : ElementClass σ α S) :
    Option (DrawableElement α S) → Size AvailableSpace → Ctx σ →
    Except String (Size Pixels) × Option (DrawableElement α S) × Ctx σ
  | none, _, cx => (.error unwrapMsg, none, cx)
  | some d, avs, cx =>
    match DrawableElement.measure cls d avs cx with
    | (r, d2, cx2) => (r, some d2, cx2)

/-- Source `ElementObject::paint` for `Option<DrawableElement<E>>`: takes the
wrapper out of the slot (leaving it empty), failing when already taken; the
returned frame state is discarded at this boundary. -/
def containerPaint {σ α S : Type} (cls : ElementClass σ α S) :
    Option (DrawableElement α S) → Ctx σ →
    Except String Unit × Option (DrawableElement α S) × Ctx σ
  | none, cx => (.error unwrapMsg, none, cx)
  | some d, cx =>
    match DrawableElement.paint cls d cx with
    | (.ok _, cx2) => (.ok (), none, cx2)
    | (.error m, cx2) => (.error m, none, cx2)

/-- Source `ElementObject::draw` for `Option<DrawableElement<E>>`: takes the
wrapper out of the slot, failing when already taken. -/
def containerDraw {σ α S : Type} (cls : ElementClass σ α S) :
    Option (DrawableElement α S) → Point → Size AvailableSpace → Ctx σ →
    Except String Unit × Option (DrawableElement α S) × Ctx σ
  | none, _, _, cx => (.error unwrapMsg, none, cx)
  | some d, origin, avs, cx =>
    match DrawableElement.draw cls d origin avs cx with
    | (.ok _, cx2) => (.ok (), none, cx2)
    | (.error m, cx2) => (.error m, none, cx2)

/-- One invocation at the erased `ElementObject` boundary. -/
inductive ElementOp where
  | layoutOp
  | measureOp (avs : Size AvailableSpace)
  | paintOp
  | drawOp (origin : Point) (avs : Size AvailableSpace)
deriving DecidableEq

/-- The result of an erased operation, made uniform across the four
operations. -/
inductive OpResult where
  | layoutId (lid : LayoutId)
  | size (sz : Size Pixels)
  | unit
deriving DecidableEq

/-- Dispatch of one erased operation on the reclaimable container. -/
def applyOp {σ α S : Type} (cls : ElementClass σ α S) (op : ElementOp)
    (c : Option (DrawableElement α S)) (cx : Ctx σ) :
    Except String OpResult × Option (DrawableElement α S) × Ctx σ :=
  match op with
  | .layoutOp =>
    match containerLayout cls c cx with
    | (.ok lid, c2, cx2) => (.ok (.layoutId lid), c2, cx2)
    | (.error m, c2, cx2) => (.error m, c2, cx2)
  | .measureOp avs =>
    match containerMeasure cls c avs cx with
    | (.ok sz, c2, cx2) => (.ok (.size sz), c2, cx2)
    | (.error m, c2, cx2) => (.error m, c2, cx2)
  | .paintOp =>
    match containerPaint cls c cx with
    | (.ok _, c2, cx2) => (.ok .unit, c2, cx2)
    | (.error m, c2, cx2) => (.error m, c2, cx2)
  | .drawOp origin avs =>
    match containerDraw cls c origin avs cx with
    | (.ok _, c2, cx2) => (.ok .unit, c2, cx2)
    | (.error m, c2, cx2) => (.error m, c2, cx2)

/-- Rank of the phase of the (possibly already consumed) wrapper, ordering
Start before LayoutRequested before LayoutComputed before consumed. -/
def phaseRank {α S : Type} : Option (DrawableElement α S) → Nat
  | none => 3
  | some d =>
    match d.phase with
    | .start => 0
    | .layoutRequested _ _ => 1
    | .layoutComputed _ _ _ => 2

/-- The `Element` and `RenderOnce` implementation of `AnyElement`: its
carrier is the erased container itself, its associated state is `()`, its
`element_id` is always `None`, and its layout/paint delegate to the erased
container operations. -/
def anyCls {σ α S : Type} [Inhabited σ] (cls : ElementClass σ α S) :
    ElementClass σ (Option (DrawableElement α S)) Unit where
  elId := fun _ => none
  layout := fun c _ cx =>
    match containerLayout cls c cx with
    | (.ok lid, c2, cx2) => (.ok ((lid, ()), c2), cx2)
    | (.error m, _, cx2) => (.error m, cx2)
  paint := fun c _ _ cx =>
    match containerPaint cls c cx with
    | (.ok _, _, cx2) => (.ok (), cx2)
    | (.error m, _, cx2) => (.error m, cx2)
  inj := fun _ => default
  proj := fun _ => some ()

/-- Source `AnyElement::into_any` on an already erased handle: `AnyElement::new`
wraps the handle in a fresh `DrawableElement` (phase `Start`) placed in a
fresh container. -/
def intoAny {α S : Type} (c : Option (DrawableElement α S)) :
    Option (DrawableElement (Option (DrawableElement α S)) Unit) :=
  some { element := some c, phase := .start }

/-- Source type `CompositeElement`: holds the component in an owned
slot, consumed on layout. -/
structure CompositeElement (γ : Type) where
  component : Option γ
deriving DecidableEq

/-- Source type `CompositeElementState`: the nested rendered element and
its frame state. -/
structure CompositeElementState (β S : Type) where
  renderedElement : Option β
  renderedElementState : S
deriving DecidableEq

/-- The `Element` and `RenderOnce` implementation of `CompositeElement`:
`element_id` is always `None`; layout consumes the component, renders it and
lays out the rendered element, threading the previously stored nested state;
paint consumes the stored rendered element and paints it with the nested
state.  (`render` stands for `component.render(cx).render_once()`.) -/
def compositeCls {σ γ β S : Type} [Inhabited σ] (render : γ → Ctx σ → β × Ctx σ)
    (ecls : ElementClass σ β S) :
    ElementClass σ (CompositeElement γ) (CompositeElementState β S) where
  elId := fun _ => none
  layout := fun ce st cx =>
    match ce.component with
    | none => (.error unwrapMsg, cx)
    | some comp =>
      match render comp cx with
      | (e, cx1) =>
        match ecls.layout e (st.map (fun s => s.renderedElementState)) cx1 with
        | (.ok ((lid, s2), e2), cx2) =>
          (.ok ((lid, ⟨some e2, s2⟩), { component := none }), cx2)
        | (.error m, cx2) => (.error m, cx2)
  paint := fun _ bounds st cx =>
    match st.renderedElement with
    | none => (.error unwrapMsg, cx)
    | some e =>
      match ecls.paint e bounds st.renderedElementState cx with
      | (.ok s2, cx2) => (.ok ⟨none, s2⟩, cx2)
      | (.error m, cx2) => (.error m, cx2)
  inj := fun _ => default
  proj := fun _ => none

/-- Source `RenderOnce::draw`: render the value into an element, build a fresh
draw-phase wrapper, drive it through a full draw, then hand the caller
continuation mutable access to the resulting frame state: through the
persisted store under the element's identity when the draw returned no
state, or through the returned inline state otherwise. -/
def renderOnceDraw {σ ρ β S R : Type} (renderOnce : ρ → β)
    (ecls : ElementClass σ β S) (r : ρ) (origin : Point)
    (avs : Size AvailableSpace) (cx : Ctx σ)
    (f : S → Ctx σ → (R × S) × Ctx σ) : Except String R × Ctx σ :=
  let element := renderOnce r
  let elementId := ecls.elId element
  let d : DrawableElement β S := { element := some element, phase := .start }
  match DrawableElement.draw ecls d origin avs cx with
  | (.error m, cx2) => (.error m, cx2)
  | (.ok frameState, cx2) =>
    match frameState with
    | some s =>
      match f s cx2 with
      | ((res, _), cx3) => (.ok res, cx3)
    | none =>
      match elementId with
      | none => (.error unwrapMsg, cx2)
      | some id =>
        match cx2.withElementState id (fun prior cx =>
          match prior with
          | none => (.error unwrapMsg, cx)
          | some anyPrev =>
            match ecls.proj anyPrev with
            | none => (.error downcastMsg, cx)
            | some s =>
              match f s cx with
              | ((res, s2), cx3) => (.ok (res, ecls.inj s2), cx3)) with
        | (.ok res, cx3) => (.ok res, cx3)
        | (.error m, cx3) => (.error m, cx3)

/-- The draw operation as claimed by the specification sentence for the
absolute-offset scope: measure and paint both executed inside the scoped
offset shift.  (Stated from the spec's words, for comparison with the
source's `DrawableElement::draw`.) -/
def drawClaimScoped {σ α S : Type} (cls : ElementClass σ α S)
    (d : DrawableElement α S) (origin : Point) (avs : Size AvailableSpace)
    (cx : Ctx σ) : Except String (Option S) × Ctx σ :=
  cx.withAbsoluteElementOffset origin (fun cx =>
    match DrawableElement.measure cls d avs cx with
    | (.ok _, d2, cx2) => DrawableElement.paint cls d2 cx2
    | (.error m, _, cx2) => (.error m, cx2))

/-- A concrete element class over `Nat` carrier, state and store, used to
evaluate the development on closed inputs: the layout handle is the element
value, layout increments the prior state, paint adds ten. -/
def natCls (eid : Option ElementId) : ElementClass Nat Nat Nat where
  elId := fun _ => eid
  layout := fun e st cx => (.ok ((e, st.getD 0 + 1), e), cx)
  paint := fun _ _ s cx => (.ok (s + 10), cx)
  inj := fun s => s
  proj := fun s => some s

/-- An empty concrete context. -/
def cx0 : Ctx Nat := ⟨[], [], [], [], ⟨0, 0⟩⟩

/-- A concrete constraint. -/
def avsA : Size AvailableSpace := ⟨.definite 200, .definite 100⟩

/-- A second, different concrete constraint. -/
def avsB : Size AvailableSpace := ⟨.definite 50, .definite 100⟩

end Gpui

namespace Gpui

/-- C2: for a wrapper already in `LayoutComputed`, re-measuring with the
recorded constraint leaves the context untouched (no solver invocation) and
returns the cached bounds, while a different constraint re-invokes the
solver exactly once more and updates the recorded constraint. -/
theorem measure_layout_computed_caching {σ α S : Type}
    (cls : ElementClass σ α S) (el : Option α) (lid : LayoutId)
    (prevAvs avs : Size AvailableSpace) (fs : Option S) (cx : Ctx σ) :
    DrawableElement.measure cls ⟨el, .layoutComputed lid prevAvs fs⟩ avs cx =
      (if avs = prevAvs then
        (.ok (cx.layoutBounds lid).size,
          ⟨el, .layoutComputed lid prevAvs fs⟩, cx)
      else
        (.ok ((cx.computeLayout lid avs).layoutBounds lid).size,
          ⟨el, .layoutComputed lid avs fs⟩, cx.computeLayout lid avs)) ∧
    ((DrawableElement.measure cls
        ⟨el, .layoutComputed lid prevAvs fs⟩ avs cx).2.2).computeLog =
      (if avs = prevAvs then cx.computeLog
       else cx.computeLog ++ [(lid, avs, cx.offset)]) := by
  constructor
  · simp only [DrawableElement.measure, measureStep]
  · simp only [DrawableElement.measure, measureStep]
    split <;> simp [Ctx.computeLayout]

/-- C5: painting a wrapper still in the `Start` phase fails
deterministically with the paint-before-layout protocol violation, both at
the wrapper level and at the erased container level. -/
theorem paint_before_layout_fails {σ α S : Type} (cls : ElementClass σ α S)
    (el : Option α) (cx : Ctx σ) :
    DrawableElement.paint cls (⟨el, .start⟩ : DrawableElement α S) cx =
      (.error paintBeforeLayoutMsg, cx) ∧
    containerPaint cls (some (⟨el, .start⟩ : DrawableElement α S)) cx =
      (.error paintBeforeLayoutMsg, none, cx) :=
  ⟨rfl, rfl⟩

/-- C6: the first `paint` or `draw` on the reclaimable container takes the
wrapper out (the slot is empty afterwards, whether the call succeeded or
failed), and every operation on an already emptied container fails fatally
with the unwrap panic. -/
theorem container_take_and_double_use {σ α S : Type}
    (cls : ElementClass σ α S) (d : DrawableElement α S) (origin : Point)
    (avs : Size AvailableSpace) (cx : Ctx σ) :
    (containerPaint cls (some d) cx).2.1 = none ∧
    (containerDraw cls (some d) origin avs cx).2.1 = none ∧
    containerPaint cls (none : Option (DrawableElement α S)) cx =
      (.error unwrapMsg, none, cx) ∧
    containerMeasure cls (none : Option (DrawableElement α S)) avs cx =
      (.error unwrapMsg, none, cx) ∧
    containerLayout cls (none : Option (DrawableElement α S)) cx =
      (.error unwrapMsg, none, cx) ∧
    containerDraw cls (none : Option (DrawableElement α S)) origin avs cx =
      (.error unwrapMsg, none, cx) := by
  refine ⟨?_, ?_, rfl, rfl, rfl, rfl⟩
  · simp only [containerPaint]
    rcases DrawableElement.paint cls d cx with ⟨r, cx2⟩
    cases r <;> rfl
  · simp only [containerDraw]
    rcases DrawableElement.draw cls d origin avs cx with ⟨r, cx2⟩
    cases r <;> rfl

/-- C4: an element without identity is laid out with `None` as previous
state and the returned state is kept inline in the phase (the context is
exactly the one the element's own layout produced, with no persisted-store
interaction added by the wrapper), and paint hands the inline state, updated
only by the element's own paint, back to the caller. -/
theorem unidentified_inline_state {σ α S : Type} (cls : ElementClass σ α S)
    (e e2 : α) (ph : ElementDrawPhase S) (cx cx1 : Ctx σ) (lid : LayoutId)
    (s : S) (lidp : LayoutId) (sp sp2 : S) (cxp cxp2 : Ctx σ)
    (hid : cls.elId e = none)
    (hlay : cls.layout e none cx = (.ok ((lid, s), e2), cx1))
    (hpaint : cls.paint e (cxp.layoutBounds lidp) sp cxp = (.ok sp2, cxp2)) :
    DrawableElement.layout cls ⟨some e, ph⟩ cx =
      (.ok lid, ⟨some e2, .layoutRequested lid (some s)⟩, cx1) ∧
    DrawableElement.paint cls ⟨some e, .layoutRequested lidp (some sp)⟩ cxp =
      (.ok (some sp2), cxp2) := by
  constructor
  · simp [DrawableElement.layout, layoutAux, hid, hlay]
  · simp [DrawableElement.paint, paintCore, hpaint]

/-- Closed witness for `unidentified_inline_state`. -/
theorem unidentified_inline_state_witness :
    DrawableElement.layout (natCls none) ⟨some 5, .start⟩ cx0 =
      (.ok 5, ⟨some 5, .layoutRequested 5 (some 1)⟩, cx0) ∧
    DrawableElement.paint (natCls none) ⟨some 5, .layoutRequested 5 (some 1)⟩
      cx0 = (.ok (some 11), cx0) :=
  unidentified_inline_state (natCls none) 5 5 .start cx0 cx0 5 1 5 1 11 cx0 cx0
    rfl rfl rfl

/-- C3: an element with identity is laid out through the persisted store
(the store's prior state for the identity is passed to the element, the
returned state is written back, the wrapper keeps no inline copy), and
paint fetches the state from the store, paints with it, writes it back and
returns `None` to the caller. -/
theorem identified_store_state {α S : Type} (cls : ElementClass S α S)
    (hproj : cls.proj = fun s => some s) (hinj : cls.inj = fun s => s)
    (e e2 : α) (ph : ElementDrawPhase S) (id : ElementId) (cx cx1 : Ctx S)
    (lid : LayoutId) (s2 : S)
    (ep : α) (idp : ElementId) (lidp : LayoutId) (sp sp2 : S)
    (cxp cxp2 : Ctx S)
    (hid : cls.elId e = some id)
    (hlay : cls.layout e (cx.lookupState id)
      { cx with storeLog := cx.storeLog ++ [id] } = (.ok ((lid, s2), e2), cx1))
    (hidp : cls.elId ep = some idp)
    (hlook : cxp.lookupState idp = some sp)
    (hpaint : cls.paint ep (cxp.layoutBounds lidp) sp
      { cxp with storeLog := cxp.storeLog ++ [idp] } = (.ok sp2, cxp2)) :
    DrawableElement.layout cls ⟨some e, ph⟩ cx =
      (.ok lid, ⟨some e2, .layoutRequested lid none⟩, cx1.setState id s2) ∧
    DrawableElement.paint cls ⟨some ep, .layoutRequested lidp none⟩ cxp =
      (.ok none, cxp2.setState idp sp2) := by
  constructor
  · simp only [DrawableElement.layout, layoutAux, hid, Ctx.withElementState,
      layoutStateCont]
    cases hpr : cx.lookupState id with
    | none =>
      rw [hpr] at hlay
      simp [hlay, hinj]
    | some prev =>
      rw [hpr] at hlay
      simp [hproj, hlay, hinj]
  · simp only [DrawableElement.paint, paintCore, hidp, Ctx.withElementState,
      paintStateCont, hlook, hproj, hpaint, hinj]

/-- Closed witness for `identified_store_state`. -/
theorem identified_store_state_witness :
    DrawableElement.layout (natCls (some 7)) ⟨some 5, .start⟩ cx0 =
      (.ok 5, ⟨some 5, .layoutRequested 5 none⟩,
        (⟨[], [7], [], [], ⟨0, 0⟩⟩ : Ctx Nat).setState 7 1) ∧
    DrawableElement.paint (natCls (some 7))
      ⟨some 5, .layoutRequested 5 none⟩ ⟨[(7, 3)], [], [], [], ⟨0, 0⟩⟩ =
      (.ok none,
        (⟨[(7, 3)], [7], [], [], ⟨0, 0⟩⟩ : Ctx Nat).setState 7 13) :=
  identified_store_state (natCls (some 7)) rfl rfl 5 5 .start 7 cx0
    ⟨[], [7], [], [], ⟨0, 0⟩⟩ 5 1 5 7 5 3 13 ⟨[(7, 3)], [], [], [], ⟨0, 0⟩⟩
    ⟨[(7, 3)], [7], [], [], ⟨0, 0⟩⟩ rfl rfl rfl rfl rfl

/-- C10: the composite adapter never carries an identity of its own
(`element_id` is always `None`), so the enclosing draw-phase wrapper always
keeps the composite state (nested rendered element plus nested frame state)
inline and never keys it into the persisted store under a composite
identity. -/
theorem composite_unidentified {σ γ β S : Type} [Inhabited σ]
    (render : γ → Ctx σ → β × Ctx σ) (ecls : ElementClass σ β S)
    (ce ce2 : CompositeElement γ)
    (ph : ElementDrawPhase (CompositeElementState β S)) (cx cx1 : Ctx σ)
    (lid : LayoutId) (cst : CompositeElementState β S)
    (hlay : (compositeCls render ecls).layout ce none cx =
      (.ok ((lid, cst), ce2), cx1)) :
    (∀ ce3 : CompositeElement γ,
      (compositeCls render ecls).elId ce3 = none) ∧
    DrawableElement.layout (compositeCls render ecls) ⟨some ce, ph⟩ cx =
      (.ok lid, ⟨some ce2, .layoutRequested lid (some cst)⟩, cx1) := by
  refine ⟨fun _ => rfl, ?_⟩
  simp [DrawableElement.layout, layoutAux, hlay]
  rfl

/-- Closed witness for `composite_unidentified`. -/
theorem composite_unidentified_witness :
    (∀ ce3 : CompositeElement Unit,
      (compositeCls (fun (_ : Unit) (cx : Ctx Nat) => (5, cx))
        (natCls none)).elId ce3 = none) ∧
    DrawableElement.layout
      (compositeCls (fun (_ : Unit) (cx : Ctx Nat) => (5, cx)) (natCls none))
      ⟨some ⟨some ()⟩, .start⟩ cx0 =
      (.ok 5, ⟨some ⟨none⟩, .layoutRequested 5 (some ⟨some 5, 1⟩)⟩, cx0) :=
  composite_unidentified (fun _ cx => (5, cx)) (natCls none) ⟨some ()⟩ ⟨none⟩
    .start cx0 cx0 5 ⟨some 5, 1⟩ rfl

end Gpui

namespace Gpui

/-- Any container state has rank at most three. -/
theorem phaseRank_le_three {α S : Type} (c : Option (DrawableElement α S)) :
    phaseRank c ≤ 3 := by
  rcases c with _ | ⟨el, ph⟩
  · exact Nat.le_refl 3
  · cases ph <;> simp [phaseRank]

/-- After `paint` at the erased boundary the container is always empty. -/
theorem applyOp_paint_container {σ α S : Type} (cls : ElementClass σ α S)
    (c : Option (DrawableElement α S)) (cx : Ctx σ) :
    (applyOp cls .paintOp c cx).2.1 = none := by
  rcases c with _ | d
  · simp [applyOp, containerPaint]
  · rcases hp : DrawableElement.paint cls d cx with ⟨r, cx2⟩
    cases r <;> simp [applyOp, containerPaint, hp]

/-- After `draw` at the erased boundary the container is always empty. -/
theorem applyOp_draw_container {σ α S : Type} (cls : ElementClass σ α S)
    (origin : Point) (avs : Size AvailableSpace)
    (c : Option (DrawableElement α S)) (cx : Ctx σ) :
    (applyOp cls (.drawOp origin avs) c cx).2.1 = none := by
  rcases c with _ | d
  · simp [applyOp, containerDraw]
  · rcases hp : DrawableElement.draw cls d origin avs cx with ⟨r, cx2⟩
    cases r <;> simp [applyOp, containerDraw, hp]

/-- C1, as stated, is false on the code: `DrawableElement::layout`
unconditionally resets the phase to `LayoutRequested`, so invoking `layout`
on a wrapper that has already reached `LayoutComputed` moves the phase
backwards and revisits `LayoutRequested`. -/
theorem phase_monotonic_counterexample :
    ¬ (∀ (cls : ElementClass Nat Nat Nat) (op : ElementOp)
        (c : Option (DrawableElement Nat Nat)) (cx : Ctx Nat),
        phaseRank c ≤ phaseRank (applyOp cls op c cx).2.1) := by
  intro h
  exact absurd
    (h (natCls none) .layoutOp
      (some ⟨some 5, .layoutComputed 5 avsA (some 1)⟩) cx0)
    (by decide)

/-- C1 amended: the phase rank (Start, LayoutRequested, LayoutComputed,
consumed) never decreases under `measure`, `paint` and `draw`; `layout`
also never decreases it provided the wrapper has not yet reached
`LayoutComputed` (from there, `layout` re-enters `LayoutRequested`). -/
theorem phase_forward_amended {σ α S : Type} (cls : ElementClass σ α S)
    (op : ElementOp) (c : Option (DrawableElement α S)) (cx : Ctx σ)
    (h : op = .layoutOp → phaseRank c ≤ 1) :
    phaseRank c ≤ phaseRank (applyOp cls op c cx).2.1 := by
  cases op with
  | paintOp =>
    rw [applyOp_paint_container]
    exact phaseRank_le_three c
  | drawOp origin avs =>
    rw [applyOp_draw_container]
    exact phaseRank_le_three c
  | layoutOp =>
    have h1 := h rfl
    rcases c with _ | ⟨el, ph⟩
    · simp [phaseRank] at h1
    · cases ph with
      | start => exact Nat.zero_le _
      | layoutRequested lid fs =>
        rcases hA : layoutAux cls el cx with ⟨r, cx2⟩
        cases r with
        | ok v =>
          rcases v with ⟨lid2, e2, fs2⟩
          simp [applyOp, containerLayout, DrawableElement.layout, hA, phaseRank]
        | error m =>
          simp [applyOp, containerLayout, DrawableElement.layout, hA, phaseRank]
      | layoutComputed lid avs fs => simp [phaseRank] at h1
  | measureOp avs =>
    rcases c with _ | ⟨el, ph⟩
    · simp [applyOp, containerMeasure, phaseRank]
    · cases ph with
      | start => exact Nat.zero_le _
      | layoutRequested lid fs =>
        simp [applyOp, containerMeasure, DrawableElement.measure, measureStep,
          phaseRank]
      | layoutComputed lid avs2 fs =>
        by_cases hav : avs = avs2 <;>
          simp [applyOp, containerMeasure, DrawableElement.measure, measureStep,
            hav, phaseRank]

/-- Closed witness for `phase_forward_amended`. -/
theorem phase_forward_amended_witness :
    phaseRank (some (⟨some 5, .start⟩ : DrawableElement Nat Nat)) ≤
      phaseRank (applyOp (natCls none) (.measureOp avsA)
        (some ⟨some 5, .start⟩) cx0).2.1 :=
  phase_forward_amended (natCls none) (.measureOp avsA)
    (some ⟨some 5, .start⟩) cx0 (fun hop => nomatch hop)

end Gpui

namespace Gpui

/-- The context part of a scoped offset shift, exposed as an equation. -/
theorem withAbsoluteElementOffset_snd {σ β : Type} (cx : Ctx σ)
    (origin : Point) (f : Ctx σ → Except String β × Ctx σ) :
    (cx.withAbsoluteElementOffset origin f).2 =
      { (f { cx with offset := cx.offset.add origin }).2 with
        offset := cx.offset } := by
  simp only [Ctx.withAbsoluteElementOffset]

/-- The result part of a scoped offset shift, exposed as an equation. -/
theorem withAbsoluteElementOffset_fst {σ β : Type} (cx : Ctx σ)
    (origin : Point) (f : Ctx σ → Except String β × Ctx σ) :
    (cx.withAbsoluteElementOffset origin f).1 =
      (f { cx with offset := cx.offset.add origin }).1 := by
  simp only [Ctx.withAbsoluteElementOffset]

/-- Lemma: `with_element_state` touches only the store and the store log, never
the ambient offset or the solver log, as long as its continuation does
not. -/
theorem withElementState_effects {σ β : Type} (cx : Ctx σ) (id : ElementId)
    (f : Option σ → Ctx σ → Except String (β × σ) × Ctx σ)
    (hf : ∀ p c, ((f p c).2).offset = c.offset ∧
      ((f p c).2).computeLog = c.computeLog) :
    ((cx.withElementState id f).2).offset = cx.offset ∧
    ((cx.withElementState id f).2).computeLog = cx.computeLog := by
  simp only [Ctx.withElementState]
  have h2 := hf (cx.lookupState id) { cx with storeLog := cx.storeLog ++ [id] }
  rcases hr : f (cx.lookupState id) { cx with storeLog := cx.storeLog ++ [id] }
    with ⟨r, cx2⟩
  rw [hr] at h2
  cases r with
  | ok v =>
    rcases v with ⟨b, s⟩
    simpa [Ctx.setState] using h2
  | error m => simpa using h2

/-- The layout store continuation preserves offset and solver log when the
element's own layout does. -/
theorem layoutStateCont_effects {σ α S : Type} (cls : ElementClass σ α S)
    (Hl : ∀ e st c, ((cls.layout e st c).2).offset = c.offset ∧
      ((cls.layout e st c).2).computeLog = c.computeLog)
    (e : α) :
    ∀ p c, ((layoutStateCont cls e p c).2).offset = c.offset ∧
      ((layoutStateCont cls e p c).2).computeLog = c.computeLog := by
  intro p c
  cases p with
  | none =>
    have h2 := Hl e none c
    rcases hl : cls.layout e none c with ⟨r, c2⟩
    rw [hl] at h2
    cases r with
    | ok v =>
      rcases v with ⟨⟨lid, s⟩, e2⟩
      simpa [layoutStateCont, hl] using h2
    | error m => simpa [layoutStateCont, hl] using h2
  | some anyPrev =>
    cases hp : cls.proj anyPrev with
    | none => simp [layoutStateCont, hp]
    | some prev =>
      have h2 := Hl e (some prev) c
      rcases hl : cls.layout e (some prev) c with ⟨r, c2⟩
      rw [hl] at h2
      cases r with
      | ok v =>
        rcases v with ⟨⟨lid, s⟩, e2⟩
        simpa [layoutStateCont, hp, hl] using h2
      | error m => simpa [layoutStateCont, hp, hl] using h2

/-- The paint store continuation preserves offset and solver log when the
element's own paint does. -/
theorem paintStateCont_effects {σ α S : Type} (cls : ElementClass σ α S)
    (Hp : ∀ e b s c, ((cls.paint e b s c).2).offset = c.offset ∧
      ((cls.paint e b s c).2).computeLog = c.computeLog)
    (e : α) (bounds : Bounds) :
    ∀ p c, ((paintStateCont cls e bounds p c).2).offset = c.offset ∧
      ((paintStateCont cls e bounds p c).2).computeLog = c.computeLog := by
  intro p c
  cases p with
  | none => simp [paintStateCont]
  | some anyPrev =>
    cases hp : cls.proj anyPrev with
    | none => simp [paintStateCont, hp]
    | some s =>
      have h2 := Hp e bounds s c
      rcases hl : cls.paint e bounds s c with ⟨r, c2⟩
      rw [hl] at h2
      cases r with
      | ok s2 => simpa [paintStateCont, hp, hl] using h2
      | error m => simpa [paintStateCont, hp, hl] using h2

/-- The layout body preserves offset and solver log when the element's own
layout does. -/
theorem layoutAux_effects {σ α S : Type} (cls : ElementClass σ α S)
    (Hl : ∀ e st c, ((cls.layout e st c).2).offset = c.offset ∧
      ((cls.layout e st c).2).computeLog = c.computeLog)
    (el : Option α) (cx : Ctx σ) :
    ((layoutAux cls el cx).2).offset = cx.offset ∧
    ((layoutAux cls el cx).2).computeLog = cx.computeLog := by
  rcases el with _ | e
  · simp [layoutAux]
  · simp only [layoutAux]
    cases hid : cls.elId e with
    | none =>
      have h2 := Hl e none cx
      rcases hl : cls.layout e none cx with ⟨r, cx2⟩
      rw [hl] at h2
      cases r with
      | ok v =>
        rcases v with ⟨⟨lid, s⟩, e2⟩
        simpa using h2
      | error m => simpa using h2
    | some id =>
      have hW := withElementState_effects cx id (layoutStateCont cls e)
        (layoutStateCont_effects cls Hl e)
      rcases hw : cx.withElementState id (layoutStateCont cls e) with ⟨r, cx2⟩
      rw [hw] at hW
      cases r with
      | ok v =>
        rcases v with ⟨lid, e2⟩
        simpa [hw] using hW
      | error m => simpa [hw] using hW

/-- Lemma: `DrawableElement::layout` preserves offset and solver log when the
element's own layout does. -/
theorem layout_effects {σ α S : Type} (cls : ElementClass σ α S)
    (Hl : ∀ e st c, ((cls.layout e st c).2).offset = c.offset ∧
      ((cls.layout e st c).2).computeLog = c.computeLog)
    (d : DrawableElement α S) (cx : Ctx σ) :
    ((DrawableElement.layout cls d cx).2.2).offset = cx.offset ∧
    ((DrawableElement.layout cls d cx).2.2).computeLog = cx.computeLog := by
  simp only [DrawableElement.layout]
  have hA := layoutAux_effects cls Hl d.element cx
  rcases hx : layoutAux cls d.element cx with ⟨r, cx2⟩
  rw [hx] at hA
  cases r with
  | ok v =>
    rcases v with ⟨lid, e2, fs⟩
    simpa using hA
  | error m => simpa using hA

/-- The measuring step preserves the ambient offset. -/
theorem measureStep_offset {σ α S : Type} (d : DrawableElement α S)
    (avs : Size AvailableSpace) (cx : Ctx σ) :
    ((measureStep d avs cx).2.2).offset = cx.offset := by
  rcases d with ⟨el, ph⟩
  cases ph with
  | start => rfl
  | layoutRequested lid fs => simp [measureStep, Ctx.computeLayout]
  | layoutComputed lid avs2 fs =>
    by_cases hav : avs = avs2 <;> simp [measureStep, hav, Ctx.computeLayout]

/-- Lemma: `DrawableElement::measure` preserves the ambient offset when the
element's own layout does. -/
theorem measure_offset {σ α S : Type} (cls : ElementClass σ α S)
    (Hl : ∀ e st c, ((cls.layout e st c).2).offset = c.offset ∧
      ((cls.layout e st c).2).computeLog = c.computeLog)
    (d : DrawableElement α S) (avs : Size AvailableSpace) (cx : Ctx σ) :
    ((DrawableElement.measure cls d avs cx).2.2).offset = cx.offset := by
  rcases d with ⟨el, ph⟩
  cases ph with
  | start =>
    simp only [DrawableElement.measure]
    have hL := layout_effects cls Hl ⟨el, .start⟩ cx
    rcases hx : DrawableElement.layout cls ⟨el, .start⟩ cx with ⟨r, d2, cx2⟩
    rw [hx] at hL
    cases r with
    | ok lid => rw [measureStep_offset]; exact hL.1
    | error m => exact hL.1
  | layoutRequested lid fs => exact measureStep_offset _ _ _
  | layoutComputed lid avs2 fs => exact measureStep_offset _ _ _

/-- The paint body preserves offset and solver log when the element's own
paint does. -/
theorem paintCore_effects {σ α S : Type} (cls : ElementClass σ α S)
    (Hp : ∀ e b s c, ((cls.paint e b s c).2).offset = c.offset ∧
      ((cls.paint e b s c).2).computeLog = c.computeLog)
    (el : Option α) (lid : LayoutId) (fs : Option S) (cx : Ctx σ) :
    ((paintCore cls el lid fs cx).2).offset = cx.offset ∧
    ((paintCore cls el lid fs cx).2).computeLog = cx.computeLog := by
  cases fs with
  | some s =>
    rcases el with _ | e
    · simp [paintCore]
    · have h2 := Hp e (cx.layoutBounds lid) s cx
      rcases hl : cls.paint e (cx.layoutBounds lid) s cx with ⟨r, cx2⟩
      rw [hl] at h2
      cases r with
      | ok s2 => simpa [paintCore, hl] using h2
      | error m => simpa [paintCore, hl] using h2
  | none =>
    rcases el with _ | e
    · simp [paintCore]
    · cases hid : cls.elId e with
      | none => simp [paintCore, hid]
      | some id =>
        have hW := withElementState_effects cx id
          (paintStateCont cls e (cx.layoutBounds lid))
          (paintStateCont_effects cls Hp e (cx.layoutBounds lid))
        rcases hw : cx.withElementState id
          (paintStateCont cls e (cx.layoutBounds lid)) with ⟨r, cx2⟩
        rw [hw] at hW
        cases r with
        | ok v => simpa [paintCore, hid, hw] using hW
        | error m => simpa [paintCore, hid, hw] using hW

/-- Lemma: `DrawableElement::paint` preserves offset and solver log when the
element's own paint does. -/
theorem paint_effects {σ α S : Type} (cls : ElementClass σ α S)
    (Hp : ∀ e b s c, ((cls.paint e b s c).2).offset = c.offset ∧
      ((cls.paint e b s c).2).computeLog = c.computeLog)
    (d : DrawableElement α S) (cx : Ctx σ) :
    ((DrawableElement.paint cls d cx).2).offset = cx.offset ∧
    ((DrawableElement.paint cls d cx).2).computeLog = cx.computeLog := by
  rcases d with ⟨el, ph⟩
  cases ph with
  | start => simp [DrawableElement.paint]
  | layoutRequested lid fs => exact paintCore_effects cls Hp el lid fs cx
  | layoutComputed lid avs fs => exact paintCore_effects cls Hp el lid fs cx

end Gpui

namespace Gpui

/-- C7, as stated, is false on the code: in `DrawableElement::draw`,
`measure` runs before the absolute-offset scope is entered (only `paint` is
inside it), so the solver invocation triggered by `draw` observes the prior
ambient offset, not the shifted one required by the claim.  At this concrete
input the source's `draw` and the claim's both-inside-the-scope version
leave different solver logs. -/
theorem draw_scope_counterexample :
    ((DrawableElement.draw (natCls none) ⟨some 5, .start⟩ ⟨5, 7⟩ avsA
        cx0).2).computeLog ≠
      ((drawClaimScoped (natCls none) ⟨some 5, .start⟩ ⟨5, 7⟩ avsA
        cx0).2).computeLog := by
  decide

/-- C7 amended: `draw(origin, constraint)` performs `measure` with the
constraint outside the offset scope and then `paint` inside the scope
shifted by `origin`; the ambient offset is restored to its prior value on
every exit path of `draw` (success or failure), and the solver invocation
performed by `draw` on a fresh unidentified wrapper records the prior
(unshifted) ambient offset. -/
theorem draw_scope_amended {σ α S : Type} (cls : ElementClass σ α S)
    (Hl : ∀ e st c, ((cls.layout e st c).2).offset = c.offset ∧
      ((cls.layout e st c).2).computeLog = c.computeLog)
    (Hp : ∀ e b s c, ((cls.paint e b s c).2).offset = c.offset ∧
      ((cls.paint e b s c).2).computeLog = c.computeLog)
    (origin : Point) (avs : Size AvailableSpace) (cx cx1 : Ctx σ)
    (e e2 : α) (lid : LayoutId) (s : S)
    (hid : cls.elId e = none)
    (hlay : cls.layout e none cx = (.ok ((lid, s), e2), cx1)) :
    (∀ d : DrawableElement α S,
      ((DrawableElement.draw cls d origin avs cx).2).offset = cx.offset) ∧
    ((DrawableElement.draw cls ⟨some e, .start⟩ origin avs cx).2).computeLog =
      cx.computeLog ++ [(lid, avs, cx.offset)] := by
  constructor
  · intro d
    simp only [DrawableElement.draw]
    have hM := measure_offset cls Hl d avs cx
    rcases hm : DrawableElement.measure cls d avs cx with ⟨r, d2, cx2⟩
    rw [hm] at hM
    cases r with
    | ok sz =>
      simp only [withAbsoluteElementOffset_snd]
      simpa using hM
    | error m => exact hM
  · have h2 := Hl e none cx
    rw [hlay] at h2
    simp only [] at h2
    obtain ⟨ho, hc⟩ := h2
    have hlay2 : DrawableElement.layout cls ⟨some e, .start⟩ cx =
        (.ok lid, ⟨some e2, .layoutRequested lid (some s)⟩, cx1) := by
      simp [DrawableElement.layout, layoutAux, hid, hlay]
    have hmeas : DrawableElement.measure cls ⟨some e, .start⟩ avs cx =
        (.ok ((cx1.computeLayout lid avs).layoutBounds lid).size,
          ⟨some e2, .layoutComputed lid avs (some s)⟩,
          cx1.computeLayout lid avs) := by
      simp [DrawableElement.measure, hlay2, measureStep]
    simp only [DrawableElement.draw, hmeas, withAbsoluteElementOffset_snd]
    have hP := paint_effects cls Hp
      ⟨some e2, .layoutComputed lid avs (some s)⟩
      { cx1.computeLayout lid avs with
        offset := (cx1.computeLayout lid avs).offset.add origin }
    simp only [hP.2]
    simp [Ctx.computeLayout, hc, ho]

/-- Closed witness for `draw_scope_amended`. -/
theorem draw_scope_amended_witness :
    (∀ d : DrawableElement Nat Nat,
      ((DrawableElement.draw (natCls none) d ⟨5, 7⟩ avsA cx0).2).offset =
        cx0.offset) ∧
    ((DrawableElement.draw (natCls none) ⟨some 5, .start⟩ ⟨5, 7⟩ avsA
        cx0).2).computeLog = cx0.computeLog ++ [(5, avsA, cx0.offset)] :=
  draw_scope_amended (natCls none) (fun _ _ _ => ⟨rfl, rfl⟩)
    (fun _ _ _ _ => ⟨rfl, rfl⟩) ⟨5, 7⟩ avsA cx0 cx0 5 5 5 1 rfl rfl

end Gpui

namespace Gpui

/-- C9: the one-off `RenderOnce::draw` renders the value, builds a fresh
draw-phase wrapper on the rendered element, drives it through one full
draw (layout and paint), and then hands the caller continuation mutable
access to the resulting frame state: through the inline state the draw
returned when there is one, or through a persisted-store lookup under the
element's identity when the draw returned none; the continuation's result
is returned to the caller (and in the store-routed case the state the
continuation left behind is written back). -/
theorem render_once_draw_routing {σ ρ β S R : Type}
    (ecls1 ecls2 : ElementClass σ β S) (renderOnce1 renderOnce2 : ρ → β)
    (origin : Point) (avs : Size AvailableSpace)
    (r1 : ρ) (cxa cxa2 : Ctx σ) (s : S) (f1 : S → Ctx σ → (R × S) × Ctx σ)
    (r2 : ρ) (id : ElementId) (cxb cxb2 : Ctx σ) (sp : S) (sAny : σ)
    (f2 : S → Ctx σ → (R × S) × Ctx σ)
    (hdraw1 : DrawableElement.draw ecls1
      ⟨some (renderOnce1 r1), .start⟩ origin avs cxa = (.ok (some s), cxa2))
    (hdraw2 : DrawableElement.draw ecls2
      ⟨some (renderOnce2 r2), .start⟩ origin avs cxb = (.ok none, cxb2))
    (hid2 : ecls2.elId (renderOnce2 r2) = some id)
    (hlook : cxb2.lookupState id = some sAny)
    (hproj : ecls2.proj sAny = some sp) :
    renderOnceDraw renderOnce1 ecls1 r1 origin avs cxa f1 =
      (.ok (f1 s cxa2).1.1, (f1 s cxa2).2) ∧
    renderOnceDraw renderOnce2 ecls2 r2 origin avs cxb f2 =
      (.ok (f2 sp { cxb2 with storeLog := cxb2.storeLog ++ [id] }).1.1,
        ((f2 sp { cxb2 with storeLog := cxb2.storeLog ++ [id] }).2).setState
          id (ecls2.inj
            (f2 sp { cxb2 with storeLog := cxb2.storeLog ++ [id] }).1.2)) := by
  constructor
  · simp only [renderOnceDraw, hdraw1]
  · simp only [renderOnceDraw, hdraw2, hid2, Ctx.withElementState, hlook,
      hproj]

/-- Closed witness for `render_once_draw_routing`. -/
theorem render_once_draw_routing_witness :
    renderOnceDraw (fun (r : Nat) => r) (natCls none) 5 ⟨1, 2⟩ avsA cx0
        (fun s cx => ((s * 2, s + 100), cx)) =
      (.ok
        ((fun (s : Nat) (cx : Ctx Nat) => ((s * 2, s + 100), cx)) 11
          ⟨[], [], [(5, avsA, ⟨0, 0⟩)], [(5, avsA)], ⟨0, 0⟩⟩).1.1,
        ((fun (s : Nat) (cx : Ctx Nat) => ((s * 2, s + 100), cx)) 11
          ⟨[], [], [(5, avsA, ⟨0, 0⟩)], [(5, avsA)], ⟨0, 0⟩⟩).2) ∧
    renderOnceDraw (fun (r : Nat) => r) (natCls (some 3)) 5 ⟨1, 2⟩ avsA cx0
        (fun s cx => ((s * 2, s + 100), cx)) =
      (.ok
        ((fun (s : Nat) (cx : Ctx Nat) => ((s * 2, s + 100), cx)) 11
          { (⟨[(3, 11)], [3, 3], [(5, avsA, ⟨0, 0⟩)], [(5, avsA)],
              ⟨0, 0⟩⟩ : Ctx Nat) with
            storeLog := [3, 3] ++ [3] }).1.1,
        (((fun (s : Nat) (cx : Ctx Nat) => ((s * 2, s + 100), cx)) 11
          { (⟨[(3, 11)], [3, 3], [(5, avsA, ⟨0, 0⟩)], [(5, avsA)],
              ⟨0, 0⟩⟩ : Ctx Nat) with
            storeLog := [3, 3] ++ [3] }).2).setState 3
          ((natCls (some 3)).inj
            ((fun (s : Nat) (cx : Ctx Nat) => ((s * 2, s + 100), cx)) 11
              { (⟨[(3, 11)], [3, 3], [(5, avsA, ⟨0, 0⟩)], [(5, avsA)],
                  ⟨0, 0⟩⟩ : Ctx Nat) with
                storeLog := [3, 3] ++ [3] }).1.2)) :=
  render_once_draw_routing (natCls none) (natCls (some 3))
    (fun r => r) (fun r => r) ⟨1, 2⟩ avsA 5 cx0
    ⟨[], [], [(5, avsA, ⟨0, 0⟩)], [(5, avsA)], ⟨0, 0⟩⟩ 11
    (fun s cx => ((s * 2, s + 100), cx)) 5 3 cx0
    ⟨[(3, 11)], [3, 3], [(5, avsA, ⟨0, 0⟩)], [(5, avsA)], ⟨0, 0⟩⟩ 11 11
    (fun s cx => ((s * 2, s + 100), cx)) rfl rfl rfl rfl rfl

end Gpui

namespace Gpui

/-- Lemma: `DrawableElement::layout` exposed as an equation on the layout body
(the phase is overwritten on success and only kept on failure). -/
theorem layout_unfold {σ α S : Type} (cls : ElementClass σ α S)
    (el : Option α) (ph : ElementDrawPhase S) (cx : Ctx σ) :
    DrawableElement.layout cls ⟨el, ph⟩ cx =
      (match layoutAux cls el cx with
      | (.ok (lid, e2, fs), cx2) =>
        (.ok lid, ⟨some e2, .layoutRequested lid fs⟩, cx2)
      | (.error m, cx2) => (.error m, ⟨el, ph⟩, cx2)) := rfl

/-- The erased container's layout on a present wrapper, as an equation on
the layout body. -/
theorem containerLayout_some {σ α S : Type} (cls : ElementClass σ α S)
    (el : Option α) (ph : ElementDrawPhase S) (cx : Ctx σ) :
    containerLayout cls (some ⟨el, ph⟩) cx =
      (match layoutAux cls el cx with
      | (.ok (lid, e2, fs), cx2) =>
        (.ok lid, some ⟨some e2, .layoutRequested lid fs⟩, cx2)
      | (.error m, cx2) => (.error m, some ⟨el, ph⟩, cx2)) := by
  rcases hA : layoutAux cls el cx with ⟨r, cx2⟩
  cases r with
  | ok v =>
    rcases v with ⟨lid, e2, fs⟩
    simp only [containerLayout, layout_unfold, hA]
  | error m => simp only [containerLayout, layout_unfold, hA]

/-- The re-erased wrapper's layout body reduces to the wrapped container's
layout (the outer element has no identity, so the unit state is kept for
inline storage). -/
theorem anyAux_unfold {σ α S : Type} [Inhabited σ] (cls : ElementClass σ α S)
    (c2 : Option (DrawableElement α S)) (cx : Ctx σ) :
    layoutAux (anyCls cls) (some c2) cx =
      (match containerLayout cls c2 cx with
      | (.ok lid, c3, cx2) => (.ok (lid, c3, some ()), cx2)
      | (.error m, _, cx2) => (.error m, cx2)) := by
  rcases hC : containerLayout cls c2 cx with ⟨r, c3, cx2⟩
  cases r with
  | ok lid => simp [layoutAux, anyCls, hC]
  | error m => simp [layoutAux, anyCls, hC]

/-- Lemma: `DrawableElement::paint` on the two paintable phases is the paint
body. -/
theorem paint_unfold_requested {σ α S : Type} (cls : ElementClass σ α S)
    (el : Option α) (lid : LayoutId) (fs : Option S) (cx : Ctx σ) :
    DrawableElement.paint cls ⟨el, .layoutRequested lid fs⟩ cx =
      paintCore cls el lid fs cx := rfl

/-- Lemma: `DrawableElement::paint` on `LayoutComputed` is the same paint body as
on `LayoutRequested`. -/
theorem paint_unfold_computed {σ α S : Type} (cls : ElementClass σ α S)
    (el : Option α) (lid : LayoutId) (avs : Size AvailableSpace)
    (fs : Option S) (cx : Ctx σ) :
    DrawableElement.paint cls ⟨el, .layoutComputed lid avs fs⟩ cx =
      paintCore cls el lid fs cx := rfl

/-- The erased container's paint on a present wrapper, as an equation. -/
theorem containerPaint_some {σ α S : Type} (cls : ElementClass σ α S)
    (d : DrawableElement α S) (cx : Ctx σ) :
    containerPaint cls (some d) cx =
      (match DrawableElement.paint cls d cx with
      | (.ok _, cx2) => (.ok (), none, cx2)
      | (.error m, cx2) => (.error m, none, cx2)) := rfl

/-- The re-erased wrapper's paint body (inline unit state) reduces to the
wrapped container's paint. -/
theorem outer_paintCore_unfold {σ α S : Type} [Inhabited σ]
    (cls : ElementClass σ α S) (c2 : Option (DrawableElement α S))
    (lid2 : LayoutId) (cx : Ctx σ) :
    paintCore (anyCls cls) (some c2) lid2 (some ()) cx =
      (match containerPaint cls c2 cx with
      | (.ok _, _, cx2) => (.ok (some ()), cx2)
      | (.error m, _, cx2) => (.error m, cx2)) := by
  rcases hC : containerPaint cls c2 cx with ⟨r, c3, cx2⟩
  cases r with
  | ok v => simp [paintCore, anyCls, hC]
  | error m => simp [paintCore, anyCls, hC]

end Gpui

namespace Gpui

/-- The scoped offset shift as an explicit pair. -/
theorem withAbsoluteElementOffset_eq {σ β : Type} (cx : Ctx σ)
    (origin : Point) (f : Ctx σ → Except String β × Ctx σ) :
    cx.withAbsoluteElementOffset origin f =
      ((f { cx with offset := cx.offset.add origin }).1,
        { (f { cx with offset := cx.offset.add origin }).2 with
          offset := cx.offset }) := by
  simp only [Ctx.withAbsoluteElementOffset]

/-- Lemma: `DrawableElement::measure` from `Start` first performs layout. -/
theorem measure_start_unfold {σ α S : Type} (cls : ElementClass σ α S)
    (el : Option α) (avs : Size AvailableSpace) (cx : Ctx σ) :
    DrawableElement.measure cls ⟨el, .start⟩ avs cx =
      (match DrawableElement.layout cls ⟨el, .start⟩ cx with
      | (.ok _, d2, cx2) => measureStep d2 avs cx2
      | (.error m, d2, cx2) => (.error m, d2, cx2)) := rfl

/-- Lemma: `DrawableElement::measure` from `LayoutRequested` computes the layout
and records the constraint. -/
theorem measure_requested_unfold {σ α S : Type} (cls : ElementClass σ α S)
    (el : Option α) (lid : LayoutId) (fs : Option S)
    (avs : Size AvailableSpace) (cx : Ctx σ) :
    DrawableElement.measure cls ⟨el, .layoutRequested lid fs⟩ avs cx =
      (.ok ((cx.computeLayout lid avs).layoutBounds lid).size,
        ⟨el, .layoutComputed lid avs fs⟩, cx.computeLayout lid avs) := rfl

/-- Lemma: `DrawableElement::measure` from `LayoutComputed` recomputes only on a
changed constraint. -/
theorem measure_computed_unfold {σ α S : Type} (cls : ElementClass σ α S)
    (el : Option α) (lid : LayoutId) (prevAvs avs : Size AvailableSpace)
    (fs : Option S) (cx : Ctx σ) :
    DrawableElement.measure cls ⟨el, .layoutComputed lid prevAvs fs⟩ avs cx =
      (if avs = prevAvs then
        (.ok (cx.layoutBounds lid).size,
          ⟨el, .layoutComputed lid prevAvs fs⟩, cx)
      else
        (.ok ((cx.computeLayout lid avs).layoutBounds lid).size,
          ⟨el, .layoutComputed lid avs fs⟩, cx.computeLayout lid avs)) := rfl

/-- Lemma: `DrawableElement::draw` as an equation. -/
theorem draw_unfold {σ α S : Type} (cls : ElementClass σ α S)
    (d : DrawableElement α S) (origin : Point) (avs : Size AvailableSpace)
    (cx : Ctx σ) :
    DrawableElement.draw cls d origin avs cx =
      (match DrawableElement.measure cls d avs cx with
      | (.ok _, d2, cx2) => cx2.withAbsoluteElementOffset origin
          (fun cxi => DrawableElement.paint cls d2 cxi)
      | (.error m, _, cx2) => (.error m, cx2)) := rfl

/-- The erased container's measure on a present wrapper, as an equation. -/
theorem containerMeasure_some {σ α S : Type} (cls : ElementClass σ α S)
    (d : DrawableElement α S) (avs : Size AvailableSpace) (cx : Ctx σ) :
    containerMeasure cls (some d) avs cx =
      ((DrawableElement.measure cls d avs cx).1,
        some (DrawableElement.measure cls d avs cx).2.1,
        (DrawableElement.measure cls d avs cx).2.2) := by
  simp only [containerMeasure]

/-- The erased container's draw on a present wrapper, as an equation. -/
theorem containerDraw_some {σ α S : Type} (cls : ElementClass σ α S)
    (d : DrawableElement α S) (origin : Point) (avs : Size AvailableSpace)
    (cx : Ctx σ) :
    containerDraw cls (some d) origin avs cx =
      (match DrawableElement.draw cls d origin avs cx with
      | (.ok _, cx2) => (.ok (), none, cx2)
      | (.error m, cx2) => (.error m, none, cx2)) := rfl

/-- Simulation between a freshly re-erased handle (the outer wrapper whose
element is the original erased container, with unit inline state) and the
original handle itself, indexed by how far the pair has been driven. -/
inductive Sim {α S : Type} :
    Option (DrawableElement (Option (DrawableElement α S)) Unit) →
    Option (DrawableElement α S) → Prop
  | start (el : Option α) :
      Sim (some ⟨some (some ⟨el, .start⟩), .start⟩) (some ⟨el, .start⟩)
  | requested (el : Option α) (lid : LayoutId) (fs : Option S) :
      Sim
        (some ⟨some (some ⟨el, .layoutRequested lid fs⟩),
          .layoutRequested lid (some ())⟩)
        (some ⟨el, .layoutRequested lid fs⟩)
  | computed (el : Option α) (lid : LayoutId) (avs : Size AvailableSpace)
      (fs : Option S) :
      Sim
        (some ⟨some (some ⟨el, .layoutRequested lid fs⟩),
          .layoutComputed lid avs (some ())⟩)
        (some ⟨el, .layoutComputed lid avs fs⟩)
  | consumed : Sim none none

/-- One simulation step for the erased `layout` operation. -/
theorem simStep_layout {σ α S : Type} [Inhabited σ]
    (cls : ElementClass σ α S)
    (co : Option (DrawableElement (Option (DrawableElement α S)) Unit))
    (c : Option (DrawableElement α S)) (cx : Ctx σ) (h : Sim co c) :
    (applyOp (anyCls cls) .layoutOp co cx).1 =
      (applyOp cls .layoutOp c cx).1 ∧
    (applyOp (anyCls cls) .layoutOp co cx).2.2 =
      (applyOp cls .layoutOp c cx).2.2 ∧
    Sim (applyOp (anyCls cls) .layoutOp co cx).2.1
      (applyOp cls .layoutOp c cx).2.1 := by
  cases h with
  | consumed => exact ⟨rfl, rfl, Sim.consumed⟩
  | start el =>
    rcases hA : layoutAux cls el cx with ⟨r, cx2⟩
    cases r with
    | ok v =>
      rcases v with ⟨lid, e2, fs⟩
      simp only [applyOp, containerLayout_some, layout_unfold, anyAux_unfold,
        hA]
      exact ⟨trivial, trivial, Sim.requested _ _ _⟩
    | error m =>
      simp only [applyOp, containerLayout_some, layout_unfold, anyAux_unfold,
        hA]
      exact ⟨trivial, trivial, Sim.start el⟩
  | requested el lid fs =>
    rcases hA : layoutAux cls el cx with ⟨r, cx2⟩
    cases r with
    | ok v =>
      rcases v with ⟨lid2, e2, fs2⟩
      simp only [applyOp, containerLayout_some, layout_unfold, anyAux_unfold,
        hA]
      exact ⟨trivial, trivial, Sim.requested _ _ _⟩
    | error m =>
      simp only [applyOp, containerLayout_some, layout_unfold, anyAux_unfold,
        hA]
      exact ⟨trivial, trivial, Sim.requested el lid fs⟩
  | computed el lid avs fs =>
    rcases hA : layoutAux cls el cx with ⟨r, cx2⟩
    cases r with
    | ok v =>
      rcases v with ⟨lid2, e2, fs2⟩
      simp only [applyOp, containerLayout_some, layout_unfold, anyAux_unfold,
        hA]
      exact ⟨trivial, trivial, Sim.requested _ _ _⟩
    | error m =>
      simp only [applyOp, containerLayout_some, layout_unfold, anyAux_unfold,
        hA]
      exact ⟨trivial, trivial, Sim.computed el lid avs fs⟩

end Gpui

namespace Gpui

/-- One simulation step for the erased `measure` operation. -/
theorem simStep_measure {σ α S : Type} [Inhabited σ]
    (cls : ElementClass σ α S) (avs2 : Size AvailableSpace)
    (co : Option (DrawableElement (Option (DrawableElement α S)) Unit))
    (c : Option (DrawableElement α S)) (cx : Ctx σ) (h : Sim co c) :
    (applyOp (anyCls cls) (.measureOp avs2) co cx).1 =
      (applyOp cls (.measureOp avs2) c cx).1 ∧
    (applyOp (anyCls cls) (.measureOp avs2) co cx).2.2 =
      (applyOp cls (.measureOp avs2) c cx).2.2 ∧
    Sim (applyOp (anyCls cls) (.measureOp avs2) co cx).2.1
      (applyOp cls (.measureOp avs2) c cx).2.1 := by
  cases h with
  | consumed => exact ⟨rfl, rfl, Sim.consumed⟩
  | start el =>
    rcases hA : layoutAux cls el cx with ⟨r, cx2⟩
    cases r with
    | ok v =>
      rcases v with ⟨lid, e2, fs⟩
      simp only [applyOp, containerMeasure_some, measure_start_unfold,
        layout_unfold, anyAux_unfold, containerLayout_some, hA, measureStep]
      exact ⟨trivial, trivial, Sim.computed _ _ _ _⟩
    | error m =>
      simp only [applyOp, containerMeasure_some, measure_start_unfold,
        layout_unfold, anyAux_unfold, containerLayout_some, hA]
      exact ⟨trivial, trivial, Sim.start el⟩
  | requested el lid fs =>
    simp only [applyOp, containerMeasure_some, measure_requested_unfold]
    exact ⟨trivial, trivial, Sim.computed _ _ _ _⟩
  | computed el lid avs fs =>
    by_cases hav : avs2 = avs
    · simp only [applyOp, containerMeasure_some, measure_computed_unfold,
        if_pos hav]
      exact ⟨trivial, trivial, Sim.computed _ _ _ _⟩
    · simp only [applyOp, containerMeasure_some, measure_computed_unfold,
        if_neg hav]
      exact ⟨trivial, trivial, Sim.computed _ _ _ _⟩

/-- One simulation step for the erased `paint` operation. -/
theorem simStep_paint {σ α S : Type} [Inhabited σ]
    (cls : ElementClass σ α S)
    (co : Option (DrawableElement (Option (DrawableElement α S)) Unit))
    (c : Option (DrawableElement α S)) (cx : Ctx σ) (h : Sim co c) :
    (applyOp (anyCls cls) .paintOp co cx).1 =
      (applyOp cls .paintOp c cx).1 ∧
    (applyOp (anyCls cls) .paintOp co cx).2.2 =
      (applyOp cls .paintOp c cx).2.2 ∧
    Sim (applyOp (anyCls cls) .paintOp co cx).2.1
      (applyOp cls .paintOp c cx).2.1 := by
  cases h with
  | consumed => exact ⟨rfl, rfl, Sim.consumed⟩
  | start el =>
    simp only [applyOp, containerPaint_some, DrawableElement.paint]
    exact ⟨trivial, trivial, Sim.consumed⟩
  | requested el lid fs =>
    rcases hP : paintCore cls el lid fs cx with ⟨r, cx2⟩
    cases r <;>
      simp only [applyOp, containerPaint_some, paint_unfold_requested,
        outer_paintCore_unfold, hP] <;>
      exact ⟨trivial, trivial, Sim.consumed⟩
  | computed el lid avs fs =>
    rcases hP : paintCore cls el lid fs cx with ⟨r, cx2⟩
    cases r <;>
      simp only [applyOp, containerPaint_some, paint_unfold_requested,
        paint_unfold_computed, outer_paintCore_unfold, hP] <;>
      exact ⟨trivial, trivial, Sim.consumed⟩

/-- One simulation step for the erased `draw` operation. -/
theorem simStep_draw {σ α S : Type} [Inhabited σ]
    (cls : ElementClass σ α S) (origin : Point) (avs2 : Size AvailableSpace)
    (co : Option (DrawableElement (Option (DrawableElement α S)) Unit))
    (c : Option (DrawableElement α S)) (cx : Ctx σ) (h : Sim co c) :
    (applyOp (anyCls cls) (.drawOp origin avs2) co cx).1 =
      (applyOp cls (.drawOp origin avs2) c cx).1 ∧
    (applyOp (anyCls cls) (.drawOp origin avs2) co cx).2.2 =
      (applyOp cls (.drawOp origin avs2) c cx).2.2 ∧
    Sim (applyOp (anyCls cls) (.drawOp origin avs2) co cx).2.1
      (applyOp cls (.drawOp origin avs2) c cx).2.1 := by
  cases h with
  | consumed => exact ⟨rfl, rfl, Sim.consumed⟩
  | start el =>
    rcases hA : layoutAux cls el cx with ⟨r, cx2⟩
    cases r with
    | ok v =>
      rcases v with ⟨lid, e2, fs⟩
      rcases hP : paintCore cls (some e2) lid fs
        { cx2.computeLayout lid avs2 with
          offset := (cx2.computeLayout lid avs2).offset.add origin }
        with ⟨rp, cxp⟩
      cases rp <;>
        simp only [applyOp, containerDraw_some, draw_unfold,
          measure_start_unfold, layout_unfold, anyAux_unfold,
          containerLayout_some, hA, measureStep, withAbsoluteElementOffset_eq,
          paint_unfold_computed, paint_unfold_requested,
          outer_paintCore_unfold, containerPaint_some, hP] <;>
        exact ⟨trivial, trivial, Sim.consumed⟩
    | error m =>
      simp only [applyOp, containerDraw_some, draw_unfold,
        measure_start_unfold, layout_unfold, anyAux_unfold,
        containerLayout_some, hA]
      exact ⟨trivial, trivial, Sim.consumed⟩
  | requested el lid fs =>
    rcases hP : paintCore cls el lid fs
      { cx.computeLayout lid avs2 with
        offset := (cx.computeLayout lid avs2).offset.add origin }
      with ⟨rp, cxp⟩
    cases rp <;>
      simp only [applyOp, containerDraw_some, draw_unfold,
        measure_requested_unfold, withAbsoluteElementOffset_eq,
        paint_unfold_computed, paint_unfold_requested,
        outer_paintCore_unfold, containerPaint_some, hP] <;>
      exact ⟨trivial, trivial, Sim.consumed⟩
  | computed el lid avs fs =>
    by_cases hav : avs2 = avs
    · rcases hP : paintCore cls el lid fs
        { cx with offset := cx.offset.add origin } with ⟨rp, cxp⟩
      cases rp <;>
        simp only [applyOp, containerDraw_some, draw_unfold,
          measure_computed_unfold, if_pos hav, withAbsoluteElementOffset_eq,
          paint_unfold_computed, paint_unfold_requested,
          outer_paintCore_unfold, containerPaint_some, hP] <;>
        exact ⟨trivial, trivial, Sim.consumed⟩
    · rcases hP : paintCore cls el lid fs
        { cx.computeLayout lid avs2 with
          offset := (cx.computeLayout lid avs2).offset.add origin }
        with ⟨rp, cxp⟩
      cases rp <;>
        simp only [applyOp, containerDraw_some, draw_unfold,
          measure_computed_unfold, if_neg hav, withAbsoluteElementOffset_eq,
          paint_unfold_computed, paint_unfold_requested,
          outer_paintCore_unfold, containerPaint_some, hP] <;>
        exact ⟨trivial, trivial, Sim.consumed⟩

end Gpui

namespace Gpui

/-- C8, as stated, is false on the code: `into_any` wraps the handle in a
fresh wrapper whose phase is `Start`, regardless of how far the original
handle had been driven.  Re-erasing a handle that is already laid out and
then painting fails with the paint-before-layout violation, while painting
the original handle succeeds. -/
theorem erase_idempotent_counterexample :
    (containerPaint (anyCls (natCls none))
      (intoAny (some ⟨some 5, .layoutRequested 5 (some 1)⟩)) cx0).1 =
      .error paintBeforeLayoutMsg ∧
    (containerPaint (natCls none)
      (some ⟨some 5, .layoutRequested 5 (some 1)⟩) cx0).1 = .ok () :=
  ⟨rfl, rfl⟩

/-- C8 amended: re-erasing a handle is behaviour-preserving for handles
that have not yet been driven: starting from a freshly wrapped not-yet-laid-
out handle, every sequence of erased operations (layout, measure, paint,
draw) produces the same results and the same context effects on the
re-erased handle as on the original, and the two stay in lock-step (the
simulation relation is preserved by every operation).  For a handle already
past `Start` the re-wrap is not equivalent: the outer wrapper restarts at
`Start`. -/
theorem erase_idempotent_amended {σ α S : Type} [Inhabited σ]
    (cls : ElementClass σ α S) (op : ElementOp)
    (co : Option (DrawableElement (Option (DrawableElement α S)) Unit))
    (c : Option (DrawableElement α S)) (cx : Ctx σ) (h : Sim co c) :
    (applyOp (anyCls cls) op co cx).1 = (applyOp cls op c cx).1 ∧
    (applyOp (anyCls cls) op co cx).2.2 = (applyOp cls op c cx).2.2 ∧
    Sim (applyOp (anyCls cls) op co cx).2.1 (applyOp cls op c cx).2.1 := by
  cases op with
  | layoutOp => exact simStep_layout cls co c cx h
  | measureOp avs => exact simStep_measure cls avs co c cx h
  | paintOp => exact simStep_paint cls co c cx h
  | drawOp origin avs => exact simStep_draw cls origin avs co c cx h

/-- Closed witness for `erase_idempotent_amended`, applied to a freshly
erased handle via `into_any`. -/
theorem erase_idempotent_amended_witness :
    (applyOp (anyCls (natCls none)) (.measureOp avsA)
      (intoAny (some ⟨some 5, .start⟩)) cx0).1 =
      (applyOp (natCls none) (.measureOp avsA)
        (some ⟨some 5, .start⟩) cx0).1 ∧
    (applyOp (anyCls (natCls none)) (.measureOp avsA)
      (intoAny (some ⟨some 5, .start⟩)) cx0).2.2 =
      (applyOp (natCls none) (.measureOp avsA)
        (some ⟨some 5, .start⟩) cx0).2.2 ∧
    Sim (applyOp (anyCls (natCls none)) (.measureOp avsA)
      (intoAny (some ⟨some 5, .start⟩)) cx0).2.1
      (applyOp (natCls none) (.measureOp avsA)
        (some ⟨some 5, .start⟩) cx0).2.1 :=
  erase_idempotent_amended (natCls none) (.measureOp avsA)
    (intoAny (some ⟨some 5, .start⟩)) (some ⟨some 5, .start⟩) cx0
    (Sim.start (some 5))

end Gpui
